import Mathlib

/-
Verification of the image recompression pipeline of
pdf_compressor_quality.py (class QualityPreservingCompressor).

The pipeline is shallowly embedded: PDF image XObject dictionaries become
the structure XObject, decoded PIL images become the structure PILImage,
and the external libraries (pikepdf's built-in image materialization,
PIL's JPEG encoder, RGB conversion, alpha compositing and resampling)
are modelled as an explicit Host of opaque computable functions, since
their pixel-level outputs are outside this repository.  All control flow,
arithmetic and metadata decisions of the source are translated exactly.
-/

/-- Declared colorspace tags of a PDF image object, as enumerated by the
data model (DeviceGray, DeviceRGB, DeviceCMYK, anything else). -/
inductive CS where
  | deviceGray
  | deviceRGB
  | deviceCMYK
  | otherCS
deriving DecidableEq

/-- PIL color modes relevant to the pipeline: the source branches on
the strings L, RGB, CMYK, RGBA, with a catch-all for every other mode. -/
inductive PILMode where
  | L
  | RGB
  | RGBA
  | CMYK
  | otherM
deriving DecidableEq

/-- Bytes per pixel of a tightly packed buffer of a given mode, as PIL
lays raw data out for Image.frombytes. -/
def channels : PILMode → Nat
  | PILMode.L => 1
  | PILMode.RGB => 3
  | PILMode.RGBA => 4
  | PILMode.CMYK => 4
  | PILMode.otherM => 3

/-- A decoded in-memory image as handed around between
smart_image_extraction and compress_image_smart. -/
structure PILImage where
  mode : PILMode
  width : Nat
  height : Nat
  data : List Nat
deriving DecidableEq

/-- A PDF image XObject handle: the dictionary fields the pipeline reads
or writes, the raw stream bytes, and a rest-of-dictionary field standing
for every entry the pipeline never touches. -/
structure XObject where
  subtype : Option String
  filter : Option String
  width : Nat
  height : Nat
  colorSpace : Option CS
  bitsPerComponent : Option Nat
  data : List Nat
  rest : List (String × String)
deriving DecidableEq

/-- The external collaborators (pikepdf and PIL), modelled as opaque
computable functions: as_pil_image (strategy 1 of the extractor, which
either yields an image or raises), the JPEG encoder
(image, quality, optimize flag to bytes), the data part of convert RGB,
of RGBA-onto-white compositing, and of LANCZOS resampling to given
dimensions. -/
structure Host where
  asPilImage : XObject → Option PILImage
  jpegEncode : PILImage → Nat → Bool → List Nat
  convertRGBData : PILImage → List Nat
  compositeData : PILImage → List Nat
  resizeData : PILImage → Nat → Nat → List Nat

def subtypeImageTag : String := "/Image"

def filterFlateTag : String := "/FlateDecode"

def filterDCTTag : String := "/DCTDecode"

def zeroDivMsg : String := "ZeroDivisionError: division by zero"

/-- PIL Image.frombytes: builds an image of the given mode and size from
a tightly packed buffer, succeeding exactly when the buffer has the
required length width*height*channels(mode). -/
def frombytes (mode : PILMode) (w h : Nat) (data : List Nat) : Option PILImage :=
  if data.length = w * h * channels mode then some ⟨mode, w, h, data⟩ else none

/-- Lines 47-55 of the source: channel count and PIL mode derived from the
declared colorspace tag; an absent tag defaults to DeviceRGB
(image_obj.get with default pikepdf.Name.DeviceRGB), an unrecognized tag
falls back to RGB with 3 channels. -/
def modeChannels (cs : Option CS) : PILMode × Nat :=
  match cs.getD CS.deviceRGB with
  | CS.deviceRGB => (PILMode.RGB, 3)
  | CS.deviceGray => (PILMode.L, 1)
  | CS.deviceCMYK => (PILMode.CMYK, 4)
  | CS.otherCS => (PILMode.RGB, 3)

/-- Method 2 of smart_image_extraction (lines 43-65): manual
reconstruction from the raw sample bytes, attempted when the raw byte
length is at least width*height*channels. -/
def extractMethod2 (obj : XObject) : Option PILImage :=
  if obj.width * obj.height * (modeChannels obj.colorSpace).2 ≤ obj.data.length then
    frombytes (modeChannels obj.colorSpace).1 obj.width obj.height
      (obj.data.take (obj.width * obj.height * (modeChannels obj.colorSpace).2))
  else none

/-- Method 3 of smart_image_extraction (lines 67-74): last-resort RGB
reinterpretation using exactly width*height*3 bytes. -/
def extractMethod3 (obj : XObject) : Option PILImage :=
  if obj.width * obj.height * 3 ≤ obj.data.length then
    frombytes PILMode.RGB obj.width obj.height
      (obj.data.take (obj.width * obj.height * 3))
  else none

/-- smart_image_extraction (lines 24-81): the built-in materialization is
tried first and returned immediately on success; manual reconstruction
and the RGB fallback are tried in order otherwise; None when every
method fails. -/
def smartImageExtraction (host : Host) (obj : XObject) : Option PILImage :=
  (host.asPilImage obj).elim
    ((extractMethod2 obj).elim (extractMethod3 obj) some)
    some

/-- Rounding helper of PIL thumbnail: among floor and ceil of the exact
scaled value, pick the one whose key is smaller (floor on ties, as
Python min does), then clamp below at 1. -/
def roundAspect (number : ℚ) (key : ℤ → ℚ) : ℤ :=
  max (if key ⌊number⌋ ≤ key ⌈number⌉ then ⌊number⌋ else ⌈number⌉) 1

/-- Dimension computation of PIL Image.thumbnail((1500, 1500)): no change
when both dimensions already fit; otherwise the bounding dimension is
pinned to 1500 and the other is the aspect-preserving scale of it,
rounded by roundAspect exactly as in PIL's preserve_aspect_ratio. -/
def thumbnailDims (w h : Nat) : Nat × Nat :=
  if w ≤ 1500 ∧ h ≤ 1500 then (w, h)
  else if (w : ℚ) / (h : ℚ) ≤ 1 then
    ((roundAspect (1500 * ((w : ℚ) / (h : ℚ)))
        (fun n => |(w : ℚ) / (h : ℚ) - (n : ℚ) / 1500|)).toNat, 1500)
  else
    (1500,
      (roundAspect (1500 / ((w : ℚ) / (h : ℚ)))
        (fun n => if n = 0 then 0 else |(w : ℚ) / (h : ℚ) - 1500 / (n : ℚ)|)).toNat)

/-- Image.thumbnail((1500, 1500), LANCZOS) as an in-place mutation of the
image (line 90 of the source): mode preserved, dimensions from
thumbnailDims, resampled pixel data from the host library. -/
def thumbnailImg (host : Host) (img : PILImage) : PILImage :=
  ⟨img.mode, (thumbnailDims img.width img.height).1,
    (thumbnailDims img.width img.height).2,
    host.resizeData img (thumbnailDims img.width img.height).1
      (thumbnailDims img.width img.height).2⟩

/-- img.convert RGB: mode becomes RGB, dimensions preserved, pixel data
from the host library conversion. -/
def convertRGB (host : Host) (img : PILImage) : PILImage :=
  ⟨PILMode.RGB, img.width, img.height, host.convertRGBData img⟩

/-- Lines 113-116 of the source: an opaque white RGB background of the
same size with the image pasted through its alpha channel. -/
def compositeWhite (host : Host) (img : PILImage) : PILImage :=
  ⟨PILMode.RGB, img.width, img.height, host.compositeData img⟩

/-- compress_image_smart (lines 83-130): resize in place when a dimension
exceeds 1500, then encode as JPEG according to the original mode; the
returned pair is the caller-visible image (mutated only by the in-place
thumbnail) and the encoded bytes. -/
def compressImageSmart (host : Host) (q gq : Nat) (img0 : PILImage) : PILImage × List Nat :=
  match img0.mode,
    (if 1500 < img0.width ∨ 1500 < img0.height then thumbnailImg host img0 else img0) with
  | PILMode.L, img => (img, host.jpegEncode img gq true)
  | PILMode.RGB, img => (img, host.jpegEncode img q true)
  | PILMode.CMYK, img => (img, host.jpegEncode (convertRGB host img) q true)
  | PILMode.RGBA, img => (img, host.jpegEncode (compositeWhite host img) q true)
  | PILMode.otherM, img => (img, host.jpegEncode (convertRGB host img) q true)

/-- The image actually handed to the JPEG encoder, by original mode:
grayscale and RGB are encoded as they are, CMYK and every other mode
after convert RGB, RGBA after compositing onto white. -/
def encodeArg (host : Host) (img : PILImage) : PILMode → PILImage
  | PILMode.L => img
  | PILMode.RGB => img
  | PILMode.CMYK => convertRGB host img
  | PILMode.RGBA => compositeWhite host img
  | PILMode.otherM => convertRGB host img

/-- The JPEG quality used, by original mode: grayscale_quality for L,
quality for everything else. -/
def encodeQuality (q gq : Nat) : PILMode → Nat
  | PILMode.L => gq
  | _ => q

/-- Line 166 of the source: compression_ratio as exact rational
arithmetic, with the ZeroDivisionError of an empty original stream made
explicit in the Except error case. -/
def compressionRatioOf (m n : Nat) : Except String ℚ :=
  if n = 0 then Except.error zeroDivMsg
  else Except.ok ((1 - (m : ℚ) / (n : ℚ)) * 100)

/-- Line 168 of the source: replace only when the ratio computation
succeeded and exceeds 10; a ZeroDivisionError is caught by the per-image
handler, which skips the handle. -/
def commitGate : Except String ℚ → Bool
  | Except.error _ => false
  | Except.ok ratio => decide (10 < ratio)

/-- Lines 170-179 of the source: the committed mutation of the handle.
Bytes and filter via obj.write, then Width, Height, BitsPerComponent,
and the colorspace tag chosen from the extracted image's mode. -/
def commitObj (obj : XObject) (img : PILImage) (bytes : List Nat) : XObject :=
  { obj with
    data := bytes
    filter := some filterDCTTag
    width := img.width
    height := img.height
    bitsPerComponent := some 8
    colorSpace := some (if img.mode = PILMode.L then CS.deviceGray else CS.deviceRGB) }

/-- Processing of one XObject inside process_pdf_images (lines 144-193):
the eligibility filter (Subtype Image and Filter FlateDecode), then
extraction, compression, the gain gate, and the commit; every other path
leaves the handle as it is. -/
def processObj (host : Host) (q gq : Nat) (obj : XObject) : XObject :=
  if obj.subtype = some subtypeImageTag ∧ obj.filter = some filterFlateTag then
    (smartImageExtraction host obj).elim obj (fun img =>
      if commitGate (compressionRatioOf
          (compressImageSmart host q gq img).2.length obj.data.length) = true then
        commitObj obj (compressImageSmart host q gq img).1
          (compressImageSmart host q gq img).2
      else obj)
  else obj

/-- The walk over the XObjects of the document in enumeration order; each
handle is processed independently and the walk continues past every
per-handle skip or failure. -/
def processList (host : Host) (q gq : Nat) (objs : List XObject) : List XObject :=
  objs.map (processObj host q gq)

/-- A concrete host whose built-in materialization yields a 1 by 1 RGB
image and whose encoder emits a single byte; used to exercise the commit
path on concrete handles. -/
def hostRGBSmall : Host :=
  ⟨fun _ => some ⟨PILMode.RGB, 1, 1, [0, 0, 0]⟩,
   fun _ _ _ => [0], fun _ => [], fun _ => [], fun _ _ _ => []⟩

/-- A concrete host whose built-in materialization always fails and whose
library calls return empty buffers; used to exercise the manual
extraction strategies on concrete handles. -/
def hostNone : Host :=
  ⟨fun _ => none, fun _ _ _ => [], fun _ => [], fun _ => [], fun _ _ _ => []⟩

/-- A concrete host whose built-in materialization yields a 1 by 1
grayscale image; used to exercise the grayscale commit path. -/
def hostGraySmall : Host :=
  ⟨fun _ => some ⟨PILMode.L, 1, 1, [7]⟩,
   fun _ _ _ => [0], fun _ => [], fun _ => [], fun _ _ _ => []⟩

/-- An eligible 1 by 1 DeviceRGB handle with a 10-byte stream. -/
def objC1 : XObject :=
  ⟨some subtypeImageTag, some filterFlateTag, 1, 1, some CS.deviceRGB, some 8,
   [0, 0, 0, 0, 0, 0, 0, 0, 0, 0], []⟩

/-- An eligible 2 by 2 DeviceRGB handle whose 5-byte stream is too short
for every extraction strategy. -/
def objShortData : XObject :=
  ⟨some subtypeImageTag, some filterFlateTag, 2, 2, some CS.deviceRGB, some 8,
   [0, 0, 0, 0, 0], []⟩

/-- A handle already stored with the lossy codec (DCTDecode filter tag). -/
def objDCT : XObject :=
  ⟨some subtypeImageTag, some filterDCTTag, 1, 1, some CS.deviceRGB, some 8,
   [0, 0, 0, 0, 0, 0, 0, 0, 0, 0], []⟩

/-- An eligible handle with an empty raw stream. -/
def objEmptyData : XObject :=
  ⟨some subtypeImageTag, some filterFlateTag, 1, 1, some CS.deviceRGB, some 8, [], []⟩

/-- An eligible 1 by 1 DeviceGray handle with a 10-byte stream. -/
def objGray : XObject :=
  ⟨some subtypeImageTag, some filterFlateTag, 1, 1, some CS.deviceGray, some 8,
   [0, 0, 0, 0, 0, 0, 0, 0, 0, 0], []⟩

/-- An eligible 2 by 1 DeviceGray handle with a 3-byte stream, one byte
more than manual reconstruction needs. -/
def objGrayData : XObject :=
  ⟨some subtypeImageTag, some filterFlateTag, 2, 1, some CS.deviceGray, some 8,
   [5, 6, 7], []⟩

/-- A 1 by 1 DeviceCMYK handle with only 3 bytes: too short for 4
channels, long enough for the RGB fallback. -/
def objCMYKShort : XObject :=
  ⟨some subtypeImageTag, some filterFlateTag, 1, 1, some CS.deviceCMYK, some 8,
   [0, 0, 0], []⟩

/-- A 1 by 1 DeviceRGB handle with only 2 bytes: too short for every
strategy. -/
def objRGBShort : XObject :=
  ⟨some subtypeImageTag, some filterFlateTag, 1, 1, some CS.deviceRGB, some 8,
   [0, 0], []⟩

/-- A decoded 3000 by 2000 RGB image, above the 1500 pixel cap. -/
def imgBig : PILImage := ⟨PILMode.RGB, 3000, 2000, []⟩

lemma elim_some_eq {α β : Type} (a : α) (b : β) (f : α → β) :
    (some a).elim b f = f a := rfl

lemma elim_none_eq {α β : Type} (b : β) (f : α → β) :
    (Option.none (α := α)).elim b f = b := rfl

lemma compressImageSmart_fst (host : Host) (q gq : Nat) (img0 : PILImage) :
    (compressImageSmart host q gq img0).1 =
      if 1500 < img0.width ∨ 1500 < img0.height then thumbnailImg host img0 else img0 := by
  rcases img0 with ⟨m, w, h, d⟩
  cases m <;> rfl

lemma compressImageSmart_mode (host : Host) (q gq : Nat) (img0 : PILImage) :
    (compressImageSmart host q gq img0).1.mode = img0.mode := by
  rw [compressImageSmart_fst]
  split <;> rfl

lemma compressImageSmart_snd (host : Host) (q gq : Nat) (img0 : PILImage) :
    (compressImageSmart host q gq img0).2 =
      host.jpegEncode (encodeArg host (compressImageSmart host q gq img0).1 img0.mode)
        (encodeQuality q gq img0.mode) true := by
  rcases img0 with ⟨m, w, h, d⟩
  cases m <;> rfl

lemma encodeArg_width (host : Host) (i : PILImage) (m : PILMode) :
    (encodeArg host i m).width = i.width := by
  cases m <;> rfl

lemma encodeArg_height (host : Host) (i : PILImage) (m : PILMode) :
    (encodeArg host i m).height = i.height := by
  cases m <;> rfl

lemma processObj_not_eligible (host : Host) (q gq : Nat) (obj : XObject)
    (h : ¬(obj.subtype = some subtypeImageTag ∧ obj.filter = some filterFlateTag)) :
    processObj host q gq obj = obj := by
  unfold processObj
  rw [if_neg h]

lemma processObj_ext_none (host : Host) (q gq : Nat) (obj : XObject)
    (h : smartImageExtraction host obj = none) :
    processObj host q gq obj = obj := by
  unfold processObj
  rw [h]
  split <;> rfl

lemma processObj_skip (host : Host) (q gq : Nat) (obj : XObject) (img : PILImage)
    (hext : smartImageExtraction host obj = some img)
    (hg : commitGate (compressionRatioOf
      (compressImageSmart host q gq img).2.length obj.data.length) = false) :
    processObj host q gq obj = obj := by
  unfold processObj
  rw [hext]
  split
  · simp only [elim_some_eq]
    rw [hg]
    simp
  · rfl

lemma processObj_commit (host : Host) (q gq : Nat) (obj : XObject) (img : PILImage)
    (he : obj.subtype = some subtypeImageTag ∧ obj.filter = some filterFlateTag)
    (hext : smartImageExtraction host obj = some img)
    (hg : commitGate (compressionRatioOf
      (compressImageSmart host q gq img).2.length obj.data.length) = true) :
    processObj host q gq obj =
      commitObj obj (compressImageSmart host q gq img).1
        (compressImageSmart host q gq img).2 := by
  unfold processObj
  rw [if_pos he, hext]
  simp only [elim_some_eq]
  rw [hg]
  simp

lemma processObj_cases (host : Host) (q gq : Nat) (obj : XObject) :
    processObj host q gq obj = obj ∨
    ((obj.subtype = some subtypeImageTag ∧ obj.filter = some filterFlateTag) ∧
      ∃ img, smartImageExtraction host obj = some img ∧
        processObj host q gq obj =
          commitObj obj (compressImageSmart host q gq img).1
            (compressImageSmart host q gq img).2) := by
  by_cases he : obj.subtype = some subtypeImageTag ∧ obj.filter = some filterFlateTag
  · rcases hext : smartImageExtraction host obj with _ | img
    · exact Or.inl (processObj_ext_none host q gq obj hext)
    · rcases hg : commitGate (compressionRatioOf
        (compressImageSmart host q gq img).2.length obj.data.length) with _ | _
      · exact Or.inl (processObj_skip host q gq obj img hext hg)
      · exact Or.inr ⟨he, img, rfl, processObj_commit host q gq obj img he hext hg⟩
  · exact Or.inl (processObj_not_eligible host q gq obj he)

lemma commitObj_ne (obj : XObject) (img : PILImage) (bytes : List Nat)
    (hfil : obj.filter = some filterFlateTag) :
    commitObj obj img bytes ≠ obj := by
  intro h
  have hL : (commitObj obj img bytes).filter = some filterDCTTag := rfl
  rw [h, hfil] at hL
  exact absurd (Option.some.inj hL) (by decide)

lemma commitObj_not_eligible (obj : XObject) (img : PILImage) (bytes : List Nat) :
    ¬((commitObj obj img bytes).subtype = some subtypeImageTag ∧
      (commitObj obj img bytes).filter = some filterFlateTag) := by
  rintro ⟨-, hf⟩
  have hL : (commitObj obj img bytes).filter = some filterDCTTag := rfl
  rw [hf] at hL
  exact absurd (Option.some.inj hL).symm (by decide)

lemma modeChannels_channels (cs : Option CS) :
    channels (modeChannels cs).1 = (modeChannels cs).2 := by
  rcases cs with _ | c
  · rfl
  · cases c <;> rfl

lemma modeChannels_snd_mem (cs : Option CS) :
    (modeChannels cs).2 = 1 ∨ (modeChannels cs).2 = 3 ∨ (modeChannels cs).2 = 4 := by
  rcases cs with _ | c
  · exact Or.inr (Or.inl rfl)
  · cases c <;> simp [modeChannels]

lemma modeChannels_four (cs : Option CS) (h : (modeChannels cs).2 = 4) :
    (modeChannels cs).1 = PILMode.CMYK := by
  rcases cs with _ | c
  · exact absurd h (by decide)
  · cases c <;> first | rfl | exact absurd h (by decide)

lemma extractMethod2_some (obj : XObject)
    (h : obj.width * obj.height * (modeChannels obj.colorSpace).2 ≤ obj.data.length) :
    extractMethod2 obj = some
      ⟨(modeChannels obj.colorSpace).1, obj.width, obj.height,
        obj.data.take (obj.width * obj.height * (modeChannels obj.colorSpace).2)⟩ := by
  unfold extractMethod2 frombytes
  rw [if_pos h, if_pos]
  rw [List.length_take, modeChannels_channels, min_eq_left h]

lemma extractMethod2_none (obj : XObject)
    (h : obj.data.length < obj.width * obj.height * (modeChannels obj.colorSpace).2) :
    extractMethod2 obj = none := by
  unfold extractMethod2
  rw [if_neg (not_le.mpr h)]

lemma extractMethod2_none_iff (obj : XObject) :
    extractMethod2 obj = none ↔
      obj.data.length < obj.width * obj.height * (modeChannels obj.colorSpace).2 := by
  constructor
  · intro h
    by_contra hc
    rw [extractMethod2_some obj (not_lt.mp hc)] at h
    exact Option.some_ne_none _ h
  · exact extractMethod2_none obj

lemma extractMethod3_none (obj : XObject)
    (h : obj.data.length < obj.width * obj.height * 3) :
    extractMethod3 obj = none := by
  unfold extractMethod3
  rw [if_neg (not_le.mpr h)]

lemma smartImageExtraction_builtin_none (host : Host) (obj : XObject)
    (h : host.asPilImage obj = none) :
    smartImageExtraction host obj =
      (extractMethod2 obj).elim (extractMethod3 obj) some := by
  unfold smartImageExtraction
  rw [h, elim_none_eq]

lemma roundAspect_one_le (number : ℚ) (key : ℤ → ℚ) :
    1 ≤ roundAspect number key :=
  le_max_right _ _

lemma roundAspect_cases (number : ℚ) (key : ℤ → ℚ) :
    roundAspect number key = ⌊number⌋ ∨ roundAspect number key = ⌈number⌉ ∨
      (roundAspect number key = 1 ∧ ⌊number⌋ ≤ 1) := by
  unfold roundAspect
  by_cases hk : key ⌊number⌋ ≤ key ⌈number⌉
  · rw [if_pos hk]
    rcases le_total 1 ⌊number⌋ with h | h
    · exact Or.inl (max_eq_left h)
    · exact Or.inr (Or.inr ⟨max_eq_right h, h⟩)
  · rw [if_neg hk]
    rcases le_total 1 ⌈number⌉ with h | h
    · exact Or.inr (Or.inl (max_eq_left h))
    · exact Or.inr (Or.inr ⟨max_eq_right h, le_trans (Int.floor_le_ceil number) h⟩)

lemma roundAspect_abs_le (number : ℚ) (key : ℤ → ℚ) (hpos : 0 < number) :
    |((roundAspect number key : ℤ) : ℚ) - number| ≤ 1 := by
  have hf : ((⌊number⌋ : ℤ) : ℚ) ≤ number := Int.floor_le number
  have hf2 : number < ((⌊number⌋ : ℤ) : ℚ) + 1 := Int.lt_floor_add_one number
  have hcl : number ≤ ((⌈number⌉ : ℤ) : ℚ) := Int.le_ceil number
  have hc2 : ((⌈number⌉ : ℤ) : ℚ) < number + 1 := Int.ceil_lt_add_one number
  rcases roundAspect_cases number key with h | h | ⟨h, hle⟩ <;> rw [h, abs_le]
  · constructor <;> linarith
  · constructor <;> linarith
  · have hle2 : ((⌊number⌋ : ℤ) : ℚ) ≤ 1 := by exact_mod_cast hle
    constructor <;> push_cast <;> linarith

lemma roundAspect_le_bound (number : ℚ) (key : ℤ → ℚ) (B : ℤ)
    (hB : 1 ≤ B) (h : number ≤ (B : ℚ)) :
    roundAspect number key ≤ B := by
  have hc : ⌈number⌉ ≤ B := Int.ceil_le.mpr h
  have hfl : ⌊number⌋ ≤ B := le_trans (Int.floor_le_ceil number) hc
  unfold roundAspect
  by_cases hk : key ⌊number⌋ ≤ key ⌈number⌉
  · rw [if_pos hk]; exact max_le hfl hB
  · rw [if_neg hk]; exact max_le hc hB

lemma thumbnailDims_small (w h : Nat) (hw : w ≤ 1500) (hh : h ≤ 1500) :
    thumbnailDims w h = (w, h) := by
  unfold thumbnailDims
  rw [if_pos ⟨hw, hh⟩]

lemma toNat_cast_rat (r : ℤ) (h : 0 ≤ r) : ((r.toNat : ℕ) : ℚ) = (r : ℚ) := by
  exact_mod_cast congrArg (fun z : ℤ => (z : ℚ)) (Int.toNat_of_nonneg h)

lemma thumbnailDims_spec (w h : Nat) (h0w : 0 < w) (h0h : 0 < h)
    (hbig : 1500 < w ∨ 1500 < h) :
    (thumbnailDims w h).1 ≤ 1500 ∧ (thumbnailDims w h).2 ≤ 1500 ∧
    (w ≤ h → (thumbnailDims w h).2 = 1500 ∧
      |((thumbnailDims w h).1 : ℚ) - 1500 * (w : ℚ) / (h : ℚ)| ≤ 1) ∧
    (h < w → (thumbnailDims w h).1 = 1500 ∧
      |((thumbnailDims w h).2 : ℚ) - 1500 * (h : ℚ) / (w : ℚ)| ≤ 1) := by
  have hnot : ¬(w ≤ 1500 ∧ h ≤ 1500) := by
    rintro ⟨a, b⟩
    rcases hbig with hb | hb <;> omega
  have hwQ : (0 : ℚ) < (w : ℚ) := by exact_mod_cast h0w
  have hhQ : (0 : ℚ) < (h : ℚ) := by exact_mod_cast h0h
  have haspect : (0 : ℚ) < (w : ℚ) / (h : ℚ) := div_pos hwQ hhQ
  unfold thumbnailDims
  rw [if_neg hnot]
  by_cases hle : (w : ℚ) / (h : ℚ) ≤ 1
  · have hwh : w ≤ h := by
      have := (div_le_one hhQ).mp hle
      exact_mod_cast this
    rw [if_pos hle]
    set num : ℚ := 1500 * ((w : ℚ) / (h : ℚ)) with hnum
    set key : ℤ → ℚ := fun n => |(w : ℚ) / (h : ℚ) - (n : ℚ) / 1500| with hkey
    have hpos : 0 < num := by positivity
    have hnle : num ≤ ((1500 : ℤ) : ℚ) := by
      have : (w : ℚ) / (h : ℚ) ≤ 1 := hle
      push_cast
      nlinarith
    have hb := roundAspect_le_bound num key 1500 (by norm_num) hnle
    have h1 := roundAspect_one_le num key
    have habs := roundAspect_abs_le num key hpos
    have hcast : (((roundAspect num key).toNat : ℕ) : ℚ) = ((roundAspect num key : ℤ) : ℚ) :=
      toNat_cast_rat _ (by linarith)
    refine ⟨Int.toNat_le.mpr hb, by norm_num, fun _ => ⟨rfl, ?_⟩, fun hc => absurd hwh (not_le.mpr hc)⟩
    simp only [hcast]
    rw [mul_div_assoc]
    exact habs
  · have hwh : h < w := by
      have := (one_lt_div hhQ).mp (not_le.mp hle)
      exact_mod_cast this
    rw [if_neg hle]
    set num : ℚ := 1500 / ((w : ℚ) / (h : ℚ)) with hnum
    set key : ℤ → ℚ := fun n => if n = 0 then 0 else |(w : ℚ) / (h : ℚ) - 1500 / (n : ℚ)| with hkey
    have hpos : 0 < num := div_pos (by norm_num) haspect
    have hone : (1 : ℚ) ≤ (w : ℚ) / (h : ℚ) := le_of_lt (not_le.mp hle)
    have hnle : num ≤ ((1500 : ℤ) : ℚ) := by
      have := div_le_self (by norm_num : (0 : ℚ) ≤ 1500) hone
      push_cast
      linarith
    have hb := roundAspect_le_bound num key 1500 (by norm_num) hnle
    have h1 := roundAspect_one_le num key
    have habs := roundAspect_abs_le num key hpos
    have hcast : (((roundAspect num key).toNat : ℕ) : ℚ) = ((roundAspect num key : ℤ) : ℚ) :=
      toNat_cast_rat _ (by linarith)
    have hnum2 : num = 1500 * (h : ℚ) / (w : ℚ) := by
      rw [hnum, div_div_eq_mul_div]
    refine ⟨by norm_num, Int.toNat_le.mpr hb, fun hc => absurd hc (not_le.mpr hwh), fun _ => ⟨rfl, ?_⟩⟩
    simp only [hcast]
    rw [← hnum2]
    exact habs

lemma commitGate_one_ten : commitGate (compressionRatioOf 1 10) = true := by
  have h : compressionRatioOf 1 10 = Except.ok ((1 - (1 : ℚ) / 10) * 100) := by
    unfold compressionRatioOf
    norm_num
  rw [h]
  exact decide_eq_true (by norm_num)

/-- C1: for an eligible handle with nonempty original bytes whose extraction
succeeds, the replacement is committed if and only if the size reduction
1 - m/n strictly exceeds 1/10; when it does, the handle becomes exactly the
committed mutation; and whenever 9n is at most 10m (m at least 0.9n),
nothing is committed and the original bytes stay in place. -/
theorem c1_gain_evaluator_threshold (host : Host) (q gq : Nat) (obj : XObject)
    (img : PILImage)
    (hsub : obj.subtype = some subtypeImageTag)
    (hfil : obj.filter = some filterFlateTag)
    (hext : smartImageExtraction host obj = some img)
    (hn : 0 < obj.data.length) :
    (processObj host q gq obj ≠ obj ↔
      1 / 10 < 1 - ((compressImageSmart host q gq img).2.length : ℚ) /
        (obj.data.length : ℚ)) ∧
    (1 / 10 < 1 - ((compressImageSmart host q gq img).2.length : ℚ) /
        (obj.data.length : ℚ) →
      processObj host q gq obj =
        commitObj obj (compressImageSmart host q gq img).1
          (compressImageSmart host q gq img).2) ∧
    (9 * obj.data.length ≤ 10 * (compressImageSmart host q gq img).2.length →
      processObj host q gq obj = obj) := by
  have hn0 : obj.data.length ≠ 0 := Nat.pos_iff_ne_zero.mp hn
  set m : Nat := (compressImageSmart host q gq img).2.length with hm
  set n : Nat := obj.data.length with hndef
  have hratio : compressionRatioOf m n = Except.ok ((1 - (m : ℚ) / (n : ℚ)) * 100) := by
    unfold compressionRatioOf
    rw [if_neg hn0]
  have hcommit : 1 / 10 < 1 - (m : ℚ) / (n : ℚ) →
      processObj host q gq obj =
        commitObj obj (compressImageSmart host q gq img).1
          (compressImageSmart host q gq img).2 := by
    intro hr
    refine processObj_commit host q gq obj img ⟨hsub, hfil⟩ hext ?_
    rw [hratio]
    exact decide_eq_true (by linarith)
  have hskip : ¬(1 / 10 < 1 - (m : ℚ) / (n : ℚ)) →
      processObj host q gq obj = obj := by
    intro hr
    refine processObj_skip host q gq obj img hext ?_
    rw [hratio]
    exact decide_eq_false (fun hgt => hr (by linarith))
  refine ⟨⟨fun hne => ?_, fun hr => ?_⟩, hcommit, fun h9 => ?_⟩
  · by_contra hcon
    exact hne (hskip hcon)
  · rw [hcommit hr]
    exact commitObj_ne obj _ _ hfil
  · refine hskip ?_
    have hnQ : (0 : ℚ) < (n : ℚ) := by exact_mod_cast hn
    have hcast : (9 : ℚ) * (n : ℚ) ≤ 10 * (m : ℚ) := by exact_mod_cast h9
    have hdiv : (9 : ℚ) / 10 ≤ (m : ℚ) / (n : ℚ) := by
      rw [div_le_div_iff₀ (by norm_num) hnQ]
      linarith
    intro hgt
    linarith

theorem c1_gain_evaluator_threshold_witness :
    processObj hostRGBSmall 40 50 objC1 ≠ objC1 := by
  refine (c1_gain_evaluator_threshold hostRGBSmall 40 50 objC1
    ⟨PILMode.RGB, 1, 1, [0, 0, 0]⟩
    (by decide) (by decide) (by decide) (by decide)).1.mpr ?_
  have h1 : (compressImageSmart hostRGBSmall 40 50
      ⟨PILMode.RGB, 1, 1, [0, 0, 0]⟩).2.length = 1 := rfl
  have h2 : objC1.data.length = 10 := rfl
  rw [h1, h2]
  norm_num

/-- C2: when every extraction strategy fails, the handle after processing is
identical to before in every field (bytes, width, height, colorspace tag,
filter tag, bit depth), and the walk continues with the next handle in the
list. -/
theorem c2_extraction_failure_leaves_handle_unchanged (host : Host) (q gq : Nat)
    (obj : XObject) (rest : List XObject)
    (hext : smartImageExtraction host obj = none) :
    processObj host q gq obj = obj ∧
    (processObj host q gq obj).data = obj.data ∧
    (processObj host q gq obj).width = obj.width ∧
    (processObj host q gq obj).height = obj.height ∧
    (processObj host q gq obj).colorSpace = obj.colorSpace ∧
    (processObj host q gq obj).filter = obj.filter ∧
    (processObj host q gq obj).bitsPerComponent = obj.bitsPerComponent ∧
    processList host q gq (obj :: rest) = obj :: processList host q gq rest := by
  have h := processObj_ext_none host q gq obj hext
  refine ⟨h, by rw [h], by rw [h], by rw [h], by rw [h], by rw [h], by rw [h], ?_⟩
  show List.map (processObj host q gq) (obj :: rest) = obj :: processList host q gq rest
  rw [List.map_cons, h]
  rfl

theorem c2_extraction_failure_leaves_handle_unchanged_witness :
    processObj hostNone 40 50 objShortData = objShortData :=
  (c2_extraction_failure_leaves_handle_unchanged hostNone 40 50 objShortData []
    (by decide)).1

/-- C3: a handle whose Subtype is not Image or whose declared filter tag is
not FlateDecode (for instance DCTDecode, any other value, or absent) is
never extracted, re-encoded, or mutated: processing leaves it exactly as
it is. -/
theorem c3_eligibility_filter (host : Host) (q gq : Nat) (obj : XObject)
    (h : obj.subtype ≠ some subtypeImageTag ∨ obj.filter ≠ some filterFlateTag) :
    processObj host q gq obj = obj := by
  refine processObj_not_eligible host q gq obj ?_
  rintro ⟨hs, hf⟩
  rcases h with h | h
  · exact h hs
  · exact h hf

theorem c3_eligibility_filter_witness :
    processObj hostRGBSmall 40 50 objDCT = objDCT :=
  c3_eligibility_filter hostRGBSmall 40 50 objDCT (Or.inr (by decide))

/-- C10: on an eligible handle whose original stream is empty but whose
extraction succeeds, the savings-ratio computation is a division by zero;
the per-handle handler swallows the error, the handle is left unchanged,
the walk continues with the next handle, and no commit happens. -/
theorem c10_zero_length_original (host : Host) (q gq : Nat) (obj : XObject)
    (img : PILImage) (rest : List XObject)
    (_hsub : obj.subtype = some subtypeImageTag)
    (_hfil : obj.filter = some filterFlateTag)
    (hext : smartImageExtraction host obj = some img)
    (hzero : obj.data.length = 0) :
    compressionRatioOf (compressImageSmart host q gq img).2.length obj.data.length =
      Except.error zeroDivMsg ∧
    processObj host q gq obj = obj ∧
    processList host q gq (obj :: rest) = obj :: processList host q gq rest := by
  have hratio : compressionRatioOf (compressImageSmart host q gq img).2.length
      obj.data.length = Except.error zeroDivMsg := by
    unfold compressionRatioOf
    rw [if_pos hzero]
  have h : processObj host q gq obj = obj := by
    refine processObj_skip host q gq obj img hext ?_
    rw [hratio]
    rfl
  refine ⟨hratio, h, ?_⟩
  show List.map (processObj host q gq) (obj :: rest) = obj :: processList host q gq rest
  rw [List.map_cons, h]
  rfl

theorem c10_zero_length_original_witness :
    compressionRatioOf
        (compressImageSmart hostRGBSmall 40 50 ⟨PILMode.RGB, 1, 1, [0, 0, 0]⟩).2.length
        objEmptyData.data.length = Except.error zeroDivMsg ∧
    processObj hostRGBSmall 40 50 objEmptyData = objEmptyData := by
  have h := c10_zero_length_original hostRGBSmall 40 50 objEmptyData
    ⟨PILMode.RGB, 1, 1, [0, 0, 0]⟩ [] (by decide) (by decide) (by decide) (by decide)
  exact ⟨h.1, h.2.1⟩

/-- C4: recompression keeps the caller image's mode, encodes a grayscale
image as grayscale at grayscaleQuality and every other mode as RGB at
colorQuality (RGB directly, CMYK and any other mode via convert RGB, RGBA
via compositing onto an opaque white background); and a committed handle
is tagged DeviceGray exactly when the extracted image was grayscale, else
DeviceRGB. -/
theorem c4_mode_and_colorspace_policy :
    (∀ (host : Host) (q gq : Nat) (img0 : PILImage),
      (compressImageSmart host q gq img0).1.mode = img0.mode ∧
      (compressImageSmart host q gq img0).2 =
        host.jpegEncode (encodeArg host (compressImageSmart host q gq img0).1 img0.mode)
          (encodeQuality q gq img0.mode) true ∧
      (img0.mode = PILMode.L →
        encodeArg host (compressImageSmart host q gq img0).1 img0.mode =
          (compressImageSmart host q gq img0).1 ∧
        (encodeArg host (compressImageSmart host q gq img0).1 img0.mode).mode =
          PILMode.L ∧
        encodeQuality q gq img0.mode = gq) ∧
      (img0.mode ≠ PILMode.L →
        (encodeArg host (compressImageSmart host q gq img0).1 img0.mode).mode =
          PILMode.RGB ∧
        encodeQuality q gq img0.mode = q) ∧
      (img0.mode = PILMode.CMYK →
        encodeArg host (compressImageSmart host q gq img0).1 img0.mode =
          convertRGB host (compressImageSmart host q gq img0).1) ∧
      (img0.mode = PILMode.RGBA →
        encodeArg host (compressImageSmart host q gq img0).1 img0.mode =
          compositeWhite host (compressImageSmart host q gq img0).1) ∧
      (img0.mode = PILMode.otherM →
        encodeArg host (compressImageSmart host q gq img0).1 img0.mode =
          convertRGB host (compressImageSmart host q gq img0).1)) ∧
    (∀ (host : Host) (q gq : Nat) (obj : XObject) (img : PILImage),
      smartImageExtraction host obj = some img →
      processObj host q gq obj ≠ obj →
      (processObj host q gq obj).colorSpace =
        some (if img.mode = PILMode.L then CS.deviceGray else CS.deviceRGB)) := by
  constructor
  · intro host q gq img0
    refine ⟨compressImageSmart_mode host q gq img0,
      compressImageSmart_snd host q gq img0, ?_, ?_, ?_, ?_, ?_⟩
    · intro hL
      rw [hL]
      exact ⟨rfl, (compressImageSmart_mode host q gq img0).trans hL, rfl⟩
    · intro hne
      cases hm : img0.mode
      case L => exact absurd hm hne
      case RGB =>
        exact ⟨(compressImageSmart_mode host q gq img0).trans hm, rfl⟩
      case RGBA => exact ⟨rfl, rfl⟩
      case CMYK => exact ⟨rfl, rfl⟩
      case otherM => exact ⟨rfl, rfl⟩
    · intro hm
      rw [hm]
      rfl
    · intro hm
      rw [hm]
      rfl
    · intro hm
      rw [hm]
      rfl
  · intro host q gq obj img hext hne
    rcases processObj_cases host q gq obj with h | ⟨-, img2, hext2, hcommit⟩
    · exact absurd h hne
    · have himg : img = img2 := Option.some.inj (hext.symm.trans hext2)
      have hmode : (compressImageSmart host q gq img2).1.mode = img.mode := by
        rw [compressImageSmart_mode, himg]
      have hcs : (commitObj obj (compressImageSmart host q gq img2).1
          (compressImageSmart host q gq img2).2).colorSpace =
          some (if (compressImageSmart host q gq img2).1.mode = PILMode.L then
            CS.deviceGray else CS.deviceRGB) := rfl
      rw [hcommit, hcs, hmode]

theorem c4_mode_and_colorspace_policy_witness :
    (processObj hostGraySmall 40 50 objGray).colorSpace = some CS.deviceGray ∧
    encodeQuality 40 50 PILMode.L = 50 := by
  have hm : (compressImageSmart hostGraySmall 40 50 ⟨PILMode.L, 1, 1, [7]⟩).2.length = 1 :=
    rfl
  have hn : objGray.data.length = 10 := rfl
  have hgate : commitGate (compressionRatioOf
      (compressImageSmart hostGraySmall 40 50 ⟨PILMode.L, 1, 1, [7]⟩).2.length
      objGray.data.length) = true := by
    rw [hm, hn]
    exact commitGate_one_ten
  have hcommit := processObj_commit hostGraySmall 40 50 objGray ⟨PILMode.L, 1, 1, [7]⟩
    ⟨rfl, rfl⟩ (by decide) hgate
  have hne : processObj hostGraySmall 40 50 objGray ≠ objGray := by
    rw [hcommit]
    exact commitObj_ne _ _ _ rfl
  exact ⟨c4_mode_and_colorspace_policy.2 hostGraySmall 40 50 objGray
      ⟨PILMode.L, 1, 1, [7]⟩ (by decide) hne,
    ((c4_mode_and_colorspace_policy.1 hostGraySmall 40 50
      ⟨PILMode.L, 1, 1, [7]⟩).2.2.1 rfl).2.2⟩

/-- C5: for a decoded image with positive dimensions, recompression leaves
an image already within 1500 by 1500 unresized, and downscales an
oversized one before encoding so that both dimensions are at most 1500,
with the free dimension within one pixel of the exact aspect-preserving
scale of the pinned one. -/
theorem c5_size_cap_resize (host : Host) (q gq : Nat) (img0 : PILImage)
    (h0w : 0 < img0.width) (h0h : 0 < img0.height) :
    (img0.width ≤ 1500 ∧ img0.height ≤ 1500 →
      (compressImageSmart host q gq img0).1.width = img0.width ∧
      (compressImageSmart host q gq img0).1.height = img0.height) ∧
    (1500 < img0.width ∨ 1500 < img0.height →
      (compressImageSmart host q gq img0).1.width ≤ 1500 ∧
      (compressImageSmart host q gq img0).1.height ≤ 1500 ∧
      (img0.width ≤ img0.height →
        (compressImageSmart host q gq img0).1.height = 1500 ∧
        |((compressImageSmart host q gq img0).1.width : ℚ) -
          1500 * (img0.width : ℚ) / (img0.height : ℚ)| ≤ 1) ∧
      (img0.height < img0.width →
        (compressImageSmart host q gq img0).1.width = 1500 ∧
        |((compressImageSmart host q gq img0).1.height : ℚ) -
          1500 * (img0.height : ℚ) / (img0.width : ℚ)| ≤ 1)) := by
  constructor
  · rintro ⟨hw, hh⟩
    rw [compressImageSmart_fst, if_neg (by simp only [not_or, not_lt]; exact ⟨hw, hh⟩)]
    exact ⟨rfl, rfl⟩
  · intro hbig
    rw [compressImageSmart_fst, if_pos hbig]
    exact thumbnailDims_spec img0.width img0.height h0w h0h hbig

theorem c5_size_cap_resize_witness :
    (compressImageSmart hostNone 40 50 imgBig).1.width ≤ 1500 ∧
    (compressImageSmart hostNone 40 50 imgBig).1.height ≤ 1500 := by
  have h := (c5_size_cap_resize hostNone 40 50 imgBig (by decide) (by decide)).2
    (Or.inl (by decide))
  exact ⟨h.1, h.2.1⟩

/-- C6: manual reconstruction derives the channel count from the declared
colorspace tag (DeviceRGB to 3, DeviceGray to 1, DeviceCMYK to 4, any
other or absent tag to 3) and, when the built-in materialization fails and
the raw byte length is at least width times height times channels,
extraction yields exactly the first expected bytes of the stream as a
tightly packed buffer of the derived mode. -/
theorem c6_manual_reconstruction :
    (modeChannels (some CS.deviceRGB) = (PILMode.RGB, 3) ∧
     modeChannels (some CS.deviceGray) = (PILMode.L, 1) ∧
     modeChannels (some CS.deviceCMYK) = (PILMode.CMYK, 4) ∧
     modeChannels (some CS.otherCS) = (PILMode.RGB, 3) ∧
     modeChannels none = (PILMode.RGB, 3)) ∧
    ∀ (host : Host) (obj : XObject),
      host.asPilImage obj = none →
      obj.width * obj.height * (modeChannels obj.colorSpace).2 ≤ obj.data.length →
      smartImageExtraction host obj = some
        ⟨(modeChannels obj.colorSpace).1, obj.width, obj.height,
          obj.data.take (obj.width * obj.height * (modeChannels obj.colorSpace).2)⟩ ∧
      (obj.data.take (obj.width * obj.height * (modeChannels obj.colorSpace).2)).length =
        obj.width * obj.height * (modeChannels obj.colorSpace).2 := by
  refine ⟨⟨rfl, rfl, rfl, rfl, rfl⟩, ?_⟩
  intro host obj h1 h2
  constructor
  · rw [smartImageExtraction_builtin_none host obj h1, extractMethod2_some obj h2,
      elim_some_eq]
  · rw [List.length_take, min_eq_left h2]

theorem c6_manual_reconstruction_witness :
    smartImageExtraction hostNone objGrayData =
      some ⟨PILMode.L, 2, 1, [5, 6]⟩ := by
  have h := (c6_manual_reconstruction.2 hostNone objGrayData (by decide) (by decide)).1
  exact h

/-- C7: the last-resort RGB reinterpretation fires only when manual
reconstruction failed although at least width times height times 3 bytes
are present, which forces the derived channel count to be 4 (a CMYK
declaration with too few bytes for 4 channels but enough for 3: a genuine
channel-count mismatch); and when the derived channel count is already 3,
method 3 never re-runs the same reinterpretation, because its byte guard
fails whenever method 2 failed. -/
theorem c7_fallback_only_on_channel_mismatch (obj : XObject) :
    (extractMethod2 obj = none → obj.width * obj.height * 3 ≤ obj.data.length →
      (modeChannels obj.colorSpace).2 = 4 ∧
      (modeChannels obj.colorSpace).1 = PILMode.CMYK ∧
      obj.data.length < obj.width * obj.height * 4) ∧
    ((modeChannels obj.colorSpace).2 = 3 → extractMethod2 obj = none →
      extractMethod3 obj = none) := by
  constructor
  · intro h2 h3
    have hlt := (extractMethod2_none_iff obj).mp h2
    rcases modeChannels_snd_mem obj.colorSpace with h | h | h
    · rw [h] at hlt
      have hk : obj.width * obj.height * 3 < obj.width * obj.height * 1 :=
        lt_of_le_of_lt h3 hlt
      exact absurd (Nat.lt_of_mul_lt_mul_left hk) (by decide)
    · rw [h] at hlt
      exact absurd h3 (not_le.mpr hlt)
    · rw [h] at hlt
      exact ⟨h, modeChannels_four _ h, hlt⟩
  · intro h3 h2
    have hlt := (extractMethod2_none_iff obj).mp h2
    rw [h3] at hlt
    exact extractMethod3_none obj hlt

theorem c7_fallback_only_on_channel_mismatch_witness :
    ((modeChannels objCMYKShort.colorSpace).2 = 4 ∧
     (modeChannels objCMYKShort.colorSpace).1 = PILMode.CMYK ∧
     objCMYKShort.data.length < objCMYKShort.width * objCMYKShort.height * 4) ∧
    extractMethod3 objRGBShort = none :=
  ⟨(c7_fallback_only_on_channel_mismatch objCMYKShort).1 (by decide) (by decide),
   (c7_fallback_only_on_channel_mismatch objRGBShort).2 (by decide) (by decide)⟩

/-- C8: processing a handle either leaves it exactly as it was or applies the
whole committed mutation at once: bytes become the encoded stream, the
filter tag becomes DCTDecode, width and height become the encoded image's
dimensions, the bit depth becomes 8, the colorspace tag is set from the
encoded mode, the remaining fields are untouched, and the committed
dimensions equal those of the image the encoder was given. -/
theorem c8_commit_atomicity :
    (∀ (obj : XObject) (i : PILImage) (b : List Nat),
      (commitObj obj i b).data = b ∧
      (commitObj obj i b).filter = some filterDCTTag ∧
      (commitObj obj i b).width = i.width ∧
      (commitObj obj i b).height = i.height ∧
      (commitObj obj i b).bitsPerComponent = some 8 ∧
      (commitObj obj i b).colorSpace =
        some (if i.mode = PILMode.L then CS.deviceGray else CS.deviceRGB) ∧
      (commitObj obj i b).subtype = obj.subtype ∧
      (commitObj obj i b).rest = obj.rest) ∧
    (∀ (host : Host) (q gq : Nat) (obj : XObject),
      processObj host q gq obj = obj ∨
      ∃ img, smartImageExtraction host obj = some img ∧
        processObj host q gq obj =
          commitObj obj (compressImageSmart host q gq img).1
            (compressImageSmart host q gq img).2 ∧
        (compressImageSmart host q gq img).2 =
          host.jpegEncode
            (encodeArg host (compressImageSmart host q gq img).1 img.mode)
            (encodeQuality q gq img.mode) true ∧
        (encodeArg host (compressImageSmart host q gq img).1 img.mode).width =
          (compressImageSmart host q gq img).1.width ∧
        (encodeArg host (compressImageSmart host q gq img).1 img.mode).height =
          (compressImageSmart host q gq img).1.height) := by
  constructor
  · intro obj i b
    exact ⟨rfl, rfl, rfl, rfl, rfl, rfl, rfl, rfl⟩
  · intro host q gq obj
    rcases processObj_cases host q gq obj with h | ⟨-, img, hext, hcommit⟩
    · exact Or.inl h
    · exact Or.inr ⟨img, hext, hcommit, compressImageSmart_snd host q gq img,
        encodeArg_width host _ _, encodeArg_height host _ _⟩

/-- C9: processing is idempotent — a second pass over any processed handle
changes nothing — and whenever the first pass committed, the handle's
filter tag is DCTDecode afterwards, which fails the FlateDecode
eligibility check, so the second pass skips it without extracting,
re-encoding, or mutating. -/
theorem c9_second_pass_noop (host : Host) (q gq : Nat) (obj : XObject) :
    processObj host q gq (processObj host q gq obj) = processObj host q gq obj ∧
    (processObj host q gq obj ≠ obj →
      (processObj host q gq obj).filter = some filterDCTTag ∧
      ¬((processObj host q gq obj).subtype = some subtypeImageTag ∧
        (processObj host q gq obj).filter = some filterFlateTag)) := by
  rcases processObj_cases host q gq obj with h | ⟨-, img, -, hcommit⟩
  · constructor
    · rw [h]
      exact h
    · intro hne
      exact absurd h hne
  · have hf : (processObj host q gq obj).filter = some filterDCTTag := by
      rw [hcommit]
      rfl
    constructor
    · rw [hcommit]
      exact processObj_not_eligible host q gq _ (commitObj_not_eligible obj _ _)
    · intro _
      refine ⟨hf, ?_⟩
      rw [hcommit]
      exact commitObj_not_eligible obj _ _

theorem c9_second_pass_noop_witness :
    processObj hostRGBSmall 40 50 (processObj hostRGBSmall 40 50 objC1) =
      processObj hostRGBSmall 40 50 objC1 ∧
    (processObj hostRGBSmall 40 50 objC1).filter = some filterDCTTag := by
  have hm : (compressImageSmart hostRGBSmall 40 50
      ⟨PILMode.RGB, 1, 1, [0, 0, 0]⟩).2.length = 1 := rfl
  have hn : objC1.data.length = 10 := rfl
  have hgate : commitGate (compressionRatioOf
      (compressImageSmart hostRGBSmall 40 50 ⟨PILMode.RGB, 1, 1, [0, 0, 0]⟩).2.length
      objC1.data.length) = true := by
    rw [hm, hn]
    exact commitGate_one_ten
  have hcommit := processObj_commit hostRGBSmall 40 50 objC1
    ⟨PILMode.RGB, 1, 1, [0, 0, 0]⟩ ⟨rfl, rfl⟩ (by decide) hgate
  have hne : processObj hostRGBSmall 40 50 objC1 ≠ objC1 := by
    rw [hcommit]
    exact commitObj_ne _ _ _ rfl
  exact ⟨(c9_second_pass_noop hostRGBSmall 40 50 objC1).1,
    ((c9_second_pass_noop hostRGBSmall 40 50 objC1).2 hne).1⟩
